import Mathlib

/-!
# EGGWARDS: state and persistence core

A shallow embedding of `src/firebase.js` and of the state handling functions of
`src/main.js`, followed by the properties proved about them.

Conventions of the embedding

* JavaScript numbers that hold amounts (`balance`, prizes, the referral bonus,
  the random draw of `getPrize`) are `JsNumber`: finite IEEE-754 doubles.  A
  decimal literal denotes the double nearest to it and `+` rounds to nearest,
  ties to even, as the source's arithmetic does.  `NaN`, the infinities and
  the sign of zero are left out, and a sum is not capped at the largest
  double.  Counters (`progress`, `refCount`) and times in milliseconds are
  naturals.
* `null` is `none`.  A string is truthy when it is not empty.
* An awaited request that may reject is given its outcome as an argument
  (`true`: the request succeeds), and a function that may throw returns a
  `Result`.
* DOM updates, sounds and the timers that only change what is displayed are
  left out; the messages of `showMessage` are kept in a log.
-/

namespace Eggwards

/-! ## JavaScript values -/

/-- Outcome of a call that may throw (or of a promise that may reject). -/
inductive Result (α : Type) where
  | ok (v : α)
  | threw
deriving DecidableEq, Repr

/-- Truthiness of a value that is a string or `null`: `null` and the empty
string are falsy. -/
def truthy : Option String → Bool
  | some s => s != ""
  | none => false

/-- The expression `x || null` for `x` a string or `null`. -/
def orNull (x : Option String) : Option String :=
  if truthy x then x else none

/-! ## JavaScript numbers -/

/-- Loop of `bitLength`: counts the binary digits of `n`, 64 at a time while
`n` has more than 64 of them. -/
def bitLengthAux : Nat → Nat → Nat → Nat
  | 0, _, acc => acc
  | fuel + 1, n, acc =>
    if n = 0 then acc
    else if n < 18446744073709551616 then bitLengthAux fuel (n / 2) (acc + 1)
    else bitLengthAux fuel (n / 18446744073709551616) (acc + 64)

/-- Number of binary digits of `n`. -/
def bitLength (n : Nat) : Nat := bitLengthAux n n 0

/-- The multiple of the spacing of doubles nearest to `N / D`, ties to the
even multiple, where numbers are counted in units of `2^-1074` (the smallest
positive double): a double keeps 53 binary digits, so around a number of
`53 + k` digits the doubles are `2^k` units apart. -/
def roundRatio (N D : Nat) : Nat :=
  let k := bitLength (N / D) - 53
  let d := D <<< k
  let q := N / d
  let r := N % d
  (if d < 2 * r ∨ (2 * r = d ∧ q % 2 = 1) then q + 1 else q) <<< k

/-- A JavaScript number that is a finite double: its value is `units` times
`2^-1074`.  The literals and `+` below only produce values of at most 53
significant binary digits. -/
structure JsNumber where
  units : Int
deriving DecidableEq, Repr

/-- The double nearest to `N / D`. -/
def JsNumber.ofRatio (N D : Nat) : JsNumber :=
  ⟨roundRatio (N <<< 1074) D⟩

/-- A decimal literal of the source: the double nearest to it. -/
instance : OfScientific JsNumber where
  ofScientific m s e :=
    if s then JsNumber.ofRatio m (10 ^ e) else JsNumber.ofRatio (m * 10 ^ e) 1

/-- An integer literal of the source: the double nearest to it. -/
instance (n : Nat) : OfNat JsNumber n := ⟨JsNumber.ofRatio n 1⟩

/-- The sum `a + b` of two doubles: the double nearest to the exact sum. -/
def JsNumber.add (a b : JsNumber) : JsNumber :=
  if a.units + b.units < 0 then ⟨-(roundRatio (a.units + b.units).natAbs 1 : Int)⟩
  else ⟨roundRatio (a.units + b.units).natAbs 1⟩

instance : Add JsNumber := ⟨JsNumber.add⟩

/-- The comparisons `<` and `<=` of two doubles compare their values. -/
instance : LinearOrder JsNumber :=
  LinearOrder.lift' JsNumber.units (fun a b h => by cases a; cases b; simp_all)

/-! ## Firestore documents (`src/firebase.js`) -/

/-- The `telegramUser` object: `{ id, username }`. -/
structure TgUser where
  id : String
  username : String
deriving DecidableEq, Repr

/-- Value of the `createdAt` field: the `serverTimestamp()` sentinel held by
the client object, or the time the server wrote in its place. -/
inductive Stamp where
  | sentinel
  | server (t : Nat)
deriving DecidableEq, Repr

/-- A document of the `users` collection, with the fields `getOrCreateUser`
writes. -/
structure UserDoc where
  uid : String
  telegramId : String
  username : String
  referrerId : Option String
  refCount : Nat
  balance : JsNumber
  progress : Nat
  walletAddress : Option String
  createdAt : Stamp
deriving DecidableEq, Repr

/-- The `users` collection: documents by document id. -/
abbrev Store := List (String × UserDoc)

/-- Firestore `getDoc`: the document stored under `id`, if any
(`snap.exists()` is `isSome`). -/
def getDoc (st : Store) (id : String) : Option UserDoc :=
  st.lookup id

/-- Firestore `setDoc`: writes (or overwrites) the document under `id`. -/
def setDoc (st : Store) (id : String) (d : UserDoc) : Store :=
  (id, d) :: st.filter (fun e => e.1 != id)

/-- Firestore `updateDoc` on a document that exists: applies the field
changes `f` to the document under `id`. -/
def updateDoc (st : Store) (id : String) (f : UserDoc → UserDoc) : Store :=
  st.map (fun e => if e.1 = id then (e.1, f e.2) else e)

/-- Outcomes of the requests `getOrCreateUser` awaits, in the order it issues
them: `getDoc(userRef)`, `setDoc(userRef, newUser)`, then inside
`updateReferrerStats` `getDoc(referrerRef)` and `updateDoc(referrerRef, ..)`. -/
structure Net where
  getUser : Bool
  setUser : Bool
  getReferrer : Bool
  updateReferrer : Bool
deriving DecidableEq, Repr

/-- Every request succeeds. -/
def Net.up : Net := ⟨true, true, true, true⟩

/-- Constant `tonPerReferral` of `updateReferrerStats`. -/
def tonPerReferral : JsNumber := 0.005

/-- The update `{ refCount: increment(1), balance: increment(tonPerReferral) }`. -/
def creditReferral (d : UserDoc) : UserDoc :=
  { d with refCount := d.refCount + 1, balance := d.balance + tonPerReferral }

/-- `updateReferrerStats(referrerId)`: `db` tells whether Firestore was
initialised. -/
def updateReferrerStats (db : Bool) (net : Net) (st : Store) (referrerId : String) :
    Result Unit × Store :=
  if !db then (.ok (), st)
  else if !net.getReferrer then (.threw, st)
  else
    match getDoc st referrerId with
    | none => (.ok (), st)
    | some _ =>
      if !net.updateReferrer then (.threw, st)
      else (.ok (), updateDoc st referrerId creditReferral)

/-- The object `newUser` built by `getOrCreateUser`. -/
def newUser (tgUser : TgUser) (referrerId : Option String) : UserDoc :=
  { uid := tgUser.id
    telegramId := tgUser.id
    username := tgUser.username
    referrerId := orNull referrerId
    refCount := 0
    balance := 0
    progress := 0
    walletAddress := none
    createdAt := Stamp.sentinel }

/-- `getOrCreateUser(tgUser, referrerId)`; `now` is the time the server puts
in place of the `serverTimestamp()` sentinel.  Returns the value the promise
settles with and the collection afterwards.  For an existing document the
result `{ uid: userSnap.id, ...userSnap.data() }` is the stored data, whose own
`uid` field overrides the one written first. -/
def getOrCreateUser (db : Bool) (net : Net) (now : Nat) (st : Store) (tgUser : TgUser)
    (referrerId : Option String) : Result (Option UserDoc) × Store :=
  if !db then (.ok none, st)
  else if !net.getUser then (.threw, st)
  else
    match getDoc st tgUser.id with
    | some data => (.ok (some data), st)
    | none =>
      if !net.setUser then (.ok none, st)
      else
        let st1 := setDoc st tgUser.id { newUser tgUser referrerId with createdAt := Stamp.server now }
        match referrerId with
        | some r =>
          if truthy (some r) then
            match updateReferrerStats db net st1 r with
            | (.ok _, st2) => (.ok (some (newUser tgUser referrerId)), st2)
            | (.threw, st2) => (.ok none, st2)
          else (.ok (some (newUser tgUser referrerId)), st1)
        | none => (.ok (some (newUser tgUser referrerId)), st1)

/-- The fields `saveState` sends: `{ progress, balance, walletAddress }`. -/
structure LocalSnapshot where
  progress : Nat
  balance : JsNumber
  walletAddress : Option String
deriving DecidableEq, Repr

/-- The update `updateDoc(userRef, data)` of `saveUserData`. -/
def patchDoc (data : LocalSnapshot) (d : UserDoc) : UserDoc :=
  { d with progress := data.progress, balance := data.balance,
           walletAddress := data.walletAddress }

/-- `saveUserData(userId, data)`; `requestOk` is the outcome of the request.
`updateDoc` rejects when the document does not exist. -/
def saveUserData (db : Bool) (requestOk : Bool) (st : Store) (userId : String)
    (data : LocalSnapshot) : Result Unit × Store :=
  if !db then (.ok (), st)
  else if !requestOk then (.threw, st)
  else
    match getDoc st userId with
    | none => (.threw, st)
    | some _ => (.ok (), updateDoc st userId (patchDoc data))

/-- `fetchUserReferrals(userId)`: the documents whose `referrerId` is
`userId`; an error of the query is caught and gives the empty list. -/
def fetchUserReferrals (db : Bool) (requestOk : Bool) (st : Store) (userId : String) :
    List UserDoc :=
  if !db then []
  else if !requestOk then []
  else (st.filter (fun e => e.2.referrerId == some userId)).map (fun e => e.2)

/-! ## Strings of the wallet prompt (`src/main.js`) -/

/-- Characters removed by `String.prototype.trim`: ECMAScript white space and
line terminators. -/
def isJsWhiteSpace (c : Char) : Bool :=
  let n := c.toNat
  n == 0x09 || n == 0x0A || n == 0x0B || n == 0x0C || n == 0x0D || n == 0x20 ||
  n == 0xA0 || n == 0x1680 || (0x2000 ≤ n && n ≤ 0x200A) || n == 0x2028 ||
  n == 0x2029 || n == 0x202F || n == 0x205F || n == 0x3000 || n == 0xFEFF

/-- `s.trim()`. -/
def jsTrim (s : String) : String :=
  String.mk ((s.data.dropWhile isJsWhiteSpace).reverse.dropWhile isJsWhiteSpace).reverse

/-- `s.length`: the number of UTF-16 code units of `s`. -/
def jsLength (s : String) : Nat :=
  (s.data.map (fun c => if 0x10000 ≤ c.toNat then 2 else 1)).sum

/-- `s.slice(6, 10)`, for a string of characters of the basic plane. -/
def slice6to10 (s : String) : String :=
  String.mk ((s.data.drop 6).take 4)

/-! ## Game constants and state (`src/main.js`) -/

/-- Constant `CLICKS_TO_CRACK`. -/
def CLICKS_TO_CRACK : Nat := 20

/-- Constant `MIN_WITHDRAWAL`. -/
def MIN_WITHDRAWAL : JsNumber := 0.02

/-- Constant `AD_COOLDOWN`, in milliseconds. -/
def AD_COOLDOWN : Nat := 3000

/-- The object `state`. -/
structure GameState where
  userId : Option String
  progress : Nat
  balance : JsNumber
  walletAddress : Option String
  isAdOnCooldown : Bool
  isTapOnCooldown : Bool
  referrals : List UserDoc
  telegramUser : TgUser
deriving DecidableEq, Repr

/-- The initial value of `state`. -/
def initialState : GameState :=
  { userId := none
    progress := 0
    balance := 0
    walletAddress := none
    isAdOnCooldown := false
    isTapOnCooldown := false
    referrals := []
    telegramUser := ⟨"123456789", "kullanici"⟩ }

/-- The fields of a JSON object that bear the name of a field of `state`,
each absent or holding a value of that field's type (`progress` a natural
number).  Fields of other names change nothing the code reads and are not
kept. -/
structure SavedFields where
  userId : Option (Option String)
  progress : Option Nat
  balance : Option JsNumber
  walletAddress : Option (Option String)
  isAdOnCooldown : Option Bool
  isTapOnCooldown : Option Bool
  referrals : Option (List UserDoc)
  telegramUser : Option TgUser
deriving DecidableEq, Repr

/-- A JSON value, as far as the spread `{ ...state, ...savedState }` looks at
it: of an array only that it is one, of an object the fields named after
fields of `state`.  An object that gives such a field a value of another type
(as `{"balance":null}` does) would put that value in `state` and has no value
here. -/
inductive JsonValue where
  | null
  | bool (b : Bool)
  | num (n : JsNumber)
  | str (s : String)
  | arr
  | obj (fields : SavedFields)
deriving DecidableEq, Repr

/-- Truthiness of a JSON value: `null`, `false`, `0` and the empty string are
falsy. -/
def jsTruthy : JsonValue → Bool
  | JsonValue.null => false
  | JsonValue.bool b => b
  | JsonValue.num n => n != 0
  | JsonValue.str s => s != ""
  | JsonValue.arr => true
  | JsonValue.obj _ => true

/-- Content of the `eggwards_state` slot of `localStorage`, by what
`JSON.parse` makes of it: the text of a JSON value (parsed to that value), or
text that is not JSON.  `JSON.stringify` and `JSON.parse` are built-ins of the
runtime. -/
inductive SlotText where
  | json (v : JsonValue)
  | notJson
deriving DecidableEq, Repr

/-- The expression `JSON.parse(localStorage.getItem('eggwards_state'))`: a missing
key gives `null`, which parses to `null`; text that is not JSON makes
`JSON.parse` throw a `SyntaxError`. -/
def parseSlot : Option SlotText → Result JsonValue
  | none => .ok JsonValue.null
  | some (SlotText.json v) => .ok v
  | some SlotText.notJson => .threw

/-- Texts shown by `showMessage`, by call site. -/
inductive Msg where
  | serverUnreachable
  | saveFailed
  | cracked
  | tooFast
  | adWatching
  | progressPlus (n : Nat)
  | walletSaved
  | walletInvalid
  | insufficientBalance
  | walletFirst
  | withdrawSending
  | withdrawReceived
  | withdrawFailed
deriving DecidableEq, Repr

/-- Body of the request `handleWithdraw` posts to the webhook. -/
structure WithdrawRequest where
  user_id : String
  username : String
  wallet : Option String
  amount : JsNumber
  request_time : Nat
deriving DecidableEq, Repr

/-- What the code does to the outside, in order. -/
inductive Effect where
  | message (m : Msg)
  | post (payload : WithdrawRequest)
deriving DecidableEq, Repr

/-- Outcome of `fetch(PIPEDREAM_WEBHOOK_URL, ..)`: a response with `ok` true, a
response with `ok` false, or a rejected request. -/
inductive Response where
  | ok
  | notOk
  | failed
deriving DecidableEq, Repr

/-- Callbacks handed to `setTimeout` that change `state`. -/
inductive Task where
  | adDone
  | crack
  | cooldownEnd
deriving DecidableEq, Repr

/-- A pending `setTimeout`: the callback and the time it becomes due. -/
structure Timer where
  due : Nat
  task : Task
deriving DecidableEq, Repr

/-- The page: `state`, the two `localStorage` slots, Firestore (`db` tells
whether it was initialised), the clock, the pending timers in the order they
were armed, and the effects so far. -/
structure World where
  state : GameState
  eggwards_state : Option SlotText
  eggwards_local_userid : Option String
  db : Bool
  store : Store
  now : Nat
  timers : List Timer
  log : List Effect
deriving DecidableEq, Repr

/-- `showMessage(text, type)`. -/
def showMessage (w : World) (m : Msg) : World :=
  { w with log := w.log ++ [Effect.message m] }

/-- `setTimeout(task, delay)`. -/
def setTimeout (w : World) (task : Task) (delay : Nat) : World :=
  { w with timers := w.timers ++ [⟨w.now + delay, task⟩] }

/-- The snapshot `{ progress, balance, walletAddress }` of a state. -/
def snapshotOf (s : GameState) : LocalSnapshot :=
  ⟨s.progress, s.balance, s.walletAddress⟩

/-- The JSON value of the object `{ progress, balance, walletAddress }`, which
is what `JSON.parse` returns for the text `JSON.stringify` makes of it. -/
def snapshotJson (v : LocalSnapshot) : JsonValue :=
  JsonValue.obj
    { userId := none
      progress := some v.progress
      balance := some v.balance
      walletAddress := some v.walletAddress
      isAdOnCooldown := none
      isTapOnCooldown := none
      referrals := none
      telegramUser := none }

/-- `saveState()`; `requestOk` is the outcome of the request of
`saveUserData`, whose rejection is caught and reported. -/
def saveState (w : World) (requestOk : Bool) : World :=
  let w1 := { w with eggwards_state := some (SlotText.json (snapshotJson (snapshotOf w.state))) }
  match w1.state.userId with
  | some uid =>
    if truthy (some uid) then
      match saveUserData w1.db requestOk w1.store uid (snapshotOf w1.state) with
      | (.ok _, st) => { w1 with store := st }
      | (.threw, st) => showMessage { w1 with store := st } Msg.saveFailed
    else w1
  | none => w1

/-- The spread `{ ...state, ...savedState }`: the fields of an object replace
those of `state` of the same name; the index properties a string or an array
adds, and a number or a boolean, change no field of `state`. -/
def mergeSaved (s : GameState) : JsonValue → GameState
  | JsonValue.obj f =>
    { userId := f.userId.getD s.userId
      progress := f.progress.getD s.progress
      balance := f.balance.getD s.balance
      walletAddress := f.walletAddress.getD s.walletAddress
      isAdOnCooldown := f.isAdOnCooldown.getD s.isAdOnCooldown
      isTapOnCooldown := f.isTapOnCooldown.getD s.isTapOnCooldown
      referrals := f.referrals.getD s.referrals
      telegramUser := f.telegramUser.getD s.telegramUser }
  | _ => s

/-- The fallback of `loadState`: read the local slot and merge it when it
is truthy. -/
def loadLocal (w : World) : Result Unit × World :=
  match parseSlot w.eggwards_state with
  | .ok saved =>
    if jsTruthy saved then (.ok (), { w with state := mergeSaved w.state saved })
    else (.ok (), w)
  | .threw => (.threw, w)

/-- Step 2 of `loadState`: the stored device identifier, or `freshId` when
none is stored (`null` or empty). -/
def localUserId (stored : Option String) (freshId : String) : String :=
  if truthy stored then stored.getD freshId else freshId

/-- The `telegramUser` that step 2 of `loadState` builds. -/
def deviceUser (stored : Option String) (freshId : String) : TgUser :=
  ⟨localUserId stored freshId, "user_" ++ slice6to10 (localUserId stored freshId)⟩

/-- `loadState()`, up to the UI update of step 4.  `referrerId` is the `ref`
parameter of the URL, `freshId` the identifier generated when none is stored,
`net` and `queryOk` the outcomes of the requests, `serverNow` the server time.
An exception raised in the `try` block (by `getOrCreateUser` or by
`JSON.parse`) runs the `catch` block, which reads the local slot again. -/
def loadState (w : World) (referrerId : Option String) (freshId : String) (net : Net)
    (queryOk : Bool) (serverNow : Nat) : Result Unit × World :=
  let w1 := { w with
    eggwards_local_userid := some (localUserId w.eggwards_local_userid freshId)
    state := { w.state with telegramUser := deviceUser w.eggwards_local_userid freshId } }
  match getOrCreateUser w1.db net serverNow w1.store w1.state.telegramUser referrerId with
  | (.ok (some userData), st) =>
    (.ok (), { w1 with
      store := st
      state := { w1.state with
        userId := some userData.uid
        progress := userData.progress
        balance := userData.balance
        walletAddress := orNull userData.walletAddress
        referrals := fetchUserReferrals w1.db queryOk st userData.uid } })
  | (.ok none, st) =>
    match loadLocal { w1 with store := st } with
    | (.ok _, w2) => (.ok (), w2)
    | (.threw, w2) => loadLocal (showMessage w2 Msg.serverUnreachable)
  | (.threw, st) => loadLocal (showMessage { w1 with store := st } Msg.serverUnreachable)

/-- `getPrize()`, as a function of the value `rand` of `Math.random() * 100`. -/
def getPrize (rand : JsNumber) : JsNumber :=
  if rand < 0.001 then 0.01
  else if rand < 0.99 then 0.005
  else if rand < 10 then 0.002
  else 0.001

/-- `crackTheEgg()`; `rand` is the draw of `getPrize`. -/
def crackTheEgg (w : World) (rand : JsNumber) (requestOk : Bool) : World :=
  let prize := getPrize rand
  let w1 := { w with state := { w.state with balance := w.state.balance + prize, progress := 0 } }
  saveState (showMessage w1 Msg.cracked) requestOk

/-- `handleWatchAd()`; `adDuration` is the delay the completion callback is
armed with. -/
def handleWatchAd (w : World) (adDuration : Nat) : World :=
  if w.state.isAdOnCooldown then showMessage w Msg.tooFast
  else
    let w1 := { w with state := { w.state with isAdOnCooldown := true } }
    setTimeout (showMessage w1 Msg.adWatching) Task.adDone adDuration

/-- The completion callback of `handleWatchAd`. -/
def adCompleted (w : World) (requestOk : Bool) : World :=
  let w1 := { w with state := { w.state with progress := w.state.progress + 1 } }
  let w2 := saveState w1 requestOk
  let w3 := if w2.state.progress ≥ CLICKS_TO_CRACK then setTimeout w2 Task.crack 500
    else showMessage w2 (Msg.progressPlus w2.state.progress)
  setTimeout w3 Task.cooldownEnd AD_COOLDOWN

/-- The callback that ends the cooldown. -/
def cooldownEnded (w : World) : World :=
  { w with state := { w.state with isAdOnCooldown := false } }

/-- `handleSetWallet()`; `address` is what `prompt` returns (`null` when the
user cancels). -/
def handleSetWallet (w : World) (address : Option String) (requestOk : Bool) : World :=
  match address with
  | some a =>
    if truthy (some a) && decide (jsLength (jsTrim a) > 10) then
      let w1 := { w with state := { w.state with walletAddress := some (jsTrim a) } }
      showMessage (saveState w1 requestOk) Msg.walletSaved
    else showMessage w Msg.walletInvalid
  | none => w

/-- `handleWithdraw()`; `address` is the answer to the prompt it may open,
`response` the outcome of the webhook request. -/
def handleWithdraw (w : World) (address : Option String) (response : Response)
    (requestOk : Bool) : World :=
  if w.state.balance < MIN_WITHDRAWAL then showMessage w Msg.insufficientBalance
  else if !truthy w.state.walletAddress then
    handleSetWallet (showMessage w Msg.walletFirst) address requestOk
  else
    let amountToWithdraw := w.state.balance
    let w1 := showMessage w Msg.withdrawSending
    let payload : WithdrawRequest :=
      { user_id := w1.state.telegramUser.id
        username := w1.state.telegramUser.username
        wallet := w1.state.walletAddress
        amount := amountToWithdraw
        request_time := w1.now }
    let w2 := { w1 with log := w1.log ++ [Effect.post payload] }
    match response with
    | Response.ok =>
      let w3 := showMessage w2 Msg.withdrawReceived
      saveState { w3 with state := { w3.state with balance := 0 } } requestOk
    | Response.notOk => showMessage w2 Msg.withdrawFailed
    | Response.failed => showMessage w2 Msg.withdrawFailed

/-! ## The event loop -/

/-- The timer that fires next.  Timers run in the order of their due times:
the one due first, the one armed first among those due at the same time. -/
def nextTimer : List Timer → Option Timer
  | [] => none
  | t :: ts =>
    match nextTimer ts with
    | none => some t
    | some u => if u.due < t.due then some u else some t

/-- Runs the callback of a timer. -/
def runTask (w : World) (task : Task) (rand : JsNumber) (requestOk : Bool) : World :=
  match task with
  | Task.adDone => adCompleted w requestOk
  | Task.crack => crackTheEgg w rand requestOk
  | Task.cooldownEnd => cooldownEnded w

/-- What happens to the page: time passes, the user clicks one of the three
buttons wired to `handleWatchAd`, `handleSetWallet` and `handleWithdraw`, or
the next timer fires (`lag` after it is due at the earliest). -/
inductive Event where
  | elapse (dt : Nat)
  | clickWatchAd (adDuration : Nat)
  | clickWallet (address : Option String) (requestOk : Bool)
  | clickWithdraw (address : Option String) (response : Response) (requestOk : Bool)
  | fire (lag : Nat) (rand : JsNumber) (requestOk : Bool)
deriving Repr

/-- One step of the event loop. -/
def step (w : World) : Event → World
  | Event.elapse dt => { w with now := w.now + dt }
  | Event.clickWatchAd adDuration => handleWatchAd w adDuration
  | Event.clickWallet address requestOk => handleSetWallet w address requestOk
  | Event.clickWithdraw address response requestOk =>
    handleWithdraw w address response requestOk
  | Event.fire lag rand requestOk =>
    match nextTimer w.timers with
    | none => w
    | some t =>
      runTask { w with timers := w.timers.erase t, now := max w.now t.due + lag } t.task rand
        requestOk

/-- Runs a sequence of events. -/
def run (w : World) (events : List Event) : World :=
  events.foldl step w

/-- Whether a crack event is scheduled. -/
def crackPending (w : World) : Bool :=
  w.timers.any (fun t => t.task == Task.crack)

/-! ## Reference worlds and the invariant of the ad button -/

/-- The page as first loaded, with nothing stored and Firestore not
initialised. -/
def initialWorld : World :=
  { state := initialState
    eggwards_state := none
    eggwards_local_userid := none
    db := false
    store := []
    now := 0
    timers := []
    log := [] }

/-- The four situations the ad button and its timers can be in. -/
def Shape (w : World) : Prop :=
  (w.state.isAdOnCooldown = false ∧ w.timers = [] ∧ w.state.progress < CLICKS_TO_CRACK) ∨
  (w.state.isAdOnCooldown = true ∧ (∃ d, w.timers = [⟨d, Task.adDone⟩]) ∧
    w.state.progress < CLICKS_TO_CRACK) ∨
  (w.state.isAdOnCooldown = true ∧ (∃ d, w.timers = [⟨d, Task.cooldownEnd⟩]) ∧
    w.state.progress < CLICKS_TO_CRACK) ∨
  (w.state.isAdOnCooldown = true ∧
    (∃ d, w.timers = [⟨d + 500, Task.crack⟩, ⟨d + AD_COOLDOWN, Task.cooldownEnd⟩]) ∧
    w.state.progress = CLICKS_TO_CRACK)

/-- One round of the ad button: a click, the completion of the ad, and the
next timer (the crack when one is scheduled, else the end of the cooldown). -/
def adRound : List Event :=
  [Event.clickWatchAd 3000, Event.fire 0 50 true, Event.fire 0 50 true]

/-- Twenty ad completions from the initial page: the cooldown timer is skipped
after the last one, so the run ends right after the twentieth completion. -/
def twentyAds : List Event :=
  (List.replicate 19 adRound).flatten ++ [Event.clickWatchAd 3000, Event.fire 0 50 true]

/-! ## Arithmetic of the amounts -/

/-- The first referral credit is exact: `0 + 0.005` is `0.005`. -/
theorem zero_add_bonus : (0 : JsNumber) + 0.005 = 0.005 := by decide

/-- The first five referral credits are exact, the sixth is not: it gives
0.030000000000000002. -/
theorem bonus_sums :
    (0.005 : JsNumber) + 0.005 = 0.01 ∧ (0.01 : JsNumber) + 0.005 = 0.015 ∧
    (0.015 : JsNumber) + 0.005 = 0.02 ∧ (0.02 : JsNumber) + 0.005 = 0.025 ∧
    (0.025 : JsNumber) + 0.005 = 0.030000000000000002 :=
  ⟨by decide, by decide, by decide, by decide, by decide⟩

/-- A prize added to a balance is rounded as well: `0.018 + 0.002` is
0.019999999999999997, below `MIN_WITHDRAWAL`. -/
theorem prize_sum_rounds :
    (0.018 : JsNumber) + 0.002 = 0.019999999999999997 ∧
    (0.018 : JsNumber) + 0.002 < MIN_WITHDRAWAL := by decide

/-- The thresholds of `getPrize` are in increasing order. -/
theorem prize_thresholds : (0.001 : JsNumber) < 0.99 ∧ (0.99 : JsNumber) < 10 := by decide

/-! ## Firestore: lookups after writes -/

theorem getDoc_setDoc (st : Store) (id k : String) (d : UserDoc) :
    getDoc (setDoc st id d) k = if k = id then some d else getDoc st k := by
  unfold getDoc setDoc
  by_cases h : k = id
  · subst h; simp [List.lookup_cons]
  · rw [List.lookup_cons, if_neg h]
    have hne : (k == id) = false := by simpa using h
    rw [hne]
    simp only [Bool.false_eq_true, if_false]
    induction st with
    | nil => rfl
    | cons e st ih =>
      obtain ⟨a, b⟩ := e
      by_cases ha : a = id
      · subst ha
        simp [List.filter_cons, List.lookup_cons, hne, ih]
      · by_cases hk : k = a
        · subst hk; simp [List.filter_cons, List.lookup_cons, ha]
        · simp [List.filter_cons, List.lookup_cons, ha, hk, ih]

theorem getDoc_updateDoc (st : Store) (id k : String) (f : UserDoc → UserDoc) :
    getDoc (updateDoc st id f) k = if k = id then (getDoc st k).map f else getDoc st k := by
  unfold getDoc updateDoc
  induction st with
  | nil => simp
  | cons e st ih =>
    obtain ⟨a, b⟩ := e
    by_cases ha : a = id
    · subst ha
      by_cases hk : k = a
      · subst hk; simp [List.lookup_cons]
      · simp only [List.map_cons, if_true, List.lookup_cons, if_neg hk] at ih ⊢
        have hk2 : (k == a) = false := by simpa using hk
        simp only [hk2, Bool.false_eq_true, if_false]
        exact ih
    · by_cases hk : k = a
      · subst hk; simp [List.lookup_cons, ha]
      · have hk2 : (k == a) = false := by simpa using hk
        simp only [List.map_cons, if_neg ha, List.lookup_cons, hk2, Bool.false_eq_true, if_false]
        exact ih

theorem truthy_some (s : String) : truthy (some s) = true ↔ s ≠ "" := by
  simp [truthy]

theorem getOrCreateUser_existing (db : Bool) (net : Net) (now : Nat) (st : Store) (u : TgUser)
    (r : Option String) (d : UserDoc) (h : getDoc st u.id = some d) :
    (getOrCreateUser db net now st u r).2 = st ∧
      (db = true → net.getUser = true → (getOrCreateUser db net now st u r).1 = .ok (some d)) := by
  unfold getOrCreateUser
  cases db <;> cases hg : net.getUser <;> simp [h]

theorem getOrCreateUser_returns_stored (db : Bool) (net : Net) (now : Nat) (st : Store)
    (u : TgUser) (r : Option String) (d : UserDoc)
    (h : (getOrCreateUser db net now st u r).1 = .ok (some d)) :
    db = true ∧ ∃ stored, getDoc (getOrCreateUser db net now st u r).2 u.id = some stored := by
  unfold getOrCreateUser at h ⊢
  cases db
  · simp at h
  · refine ⟨rfl, ?_⟩
    cases hg : net.getUser
    · simp [hg] at h
    · cases hd : getDoc st u.id with
      | some data => simp [hd]
      | none =>
        cases hs : net.setUser
        · simp [hg, hd, hs] at h
        · cases r with
          | none => simp [hd, getDoc_setDoc]
          | some r =>
            by_cases ht : truthy (some r) = true
            · simp only [hd, ht, if_true, Bool.not_true, Bool.false_eq_true, if_false]
              unfold updateReferrerStats
              cases hgr : net.getReferrer
              · simp [getDoc_setDoc]
              · cases hr : getDoc (setDoc st u.id { newUser u (some r) with createdAt := Stamp.server now }) r with
                | none => simp [getDoc_setDoc]
                | some a =>
                  cases hu : net.updateReferrer
                  · simp [getDoc_setDoc]
                  · simp only [Bool.not_true, Bool.false_eq_true, if_false, getDoc_updateDoc, getDoc_setDoc, if_true]
                    by_cases hk : u.id = r <;> simp [hk]
            · simp [hd, ht, getDoc_setDoc]

/-! ## Referral and creation (C4, C5, C6) -/

/-- Requests of `getOrCreateUser` never change a document other than the
new user's and the referrer's. -/
theorem getOrCreateUser_other_docs (db : Bool) (net : Net) (now : Nat) (st : Store)
    (u : TgUser) (r : Option String) (k : String) (hk : k ≠ u.id) (hr : r ≠ some k) :
    getDoc (getOrCreateUser db net now st u r).2 k = getDoc st k := by
  unfold getOrCreateUser
  cases db
  · simp
  · cases hg : net.getUser
    · simp
    · cases hd : getDoc st u.id with
      | some data => simp
      | none =>
        cases hs : net.setUser
        · simp
        · cases r with
          | none => simp [getDoc_setDoc, hk]
          | some r =>
            have hrk : k ≠ r := fun h => hr (by rw [h])
            by_cases ht : truthy (some r) = true
            · simp only [ht, if_true, Bool.not_true, Bool.false_eq_true, if_false]
              unfold updateReferrerStats
              cases hgr : net.getReferrer
              · simp [getDoc_setDoc, hk]
              · cases hr2 : getDoc (setDoc st u.id { newUser u (some r) with createdAt := Stamp.server now }) r with
                | none => simp [getDoc_setDoc, hk]
                | some a =>
                  cases hu : net.updateReferrer
                  · simp [getDoc_setDoc, hk]
                  · simp [getDoc_updateDoc, getDoc_setDoc, hk, hrk]
            · simp [ht, getDoc_setDoc, hk]

/-- C4, counterexample: on an empty collection, creating `local_1_abc` with its
own id as referrer leaves the new document with `refCount` 1 and `balance`
0.005: the user is credited as its own referrer. -/
theorem self_referral_credited :
    getDoc [] "local_1_abc" = none ∧
    ∃ d, getDoc (getOrCreateUser true Net.up 7 [] ⟨"local_1_abc", "user__abc"⟩
        (some "local_1_abc")).2 "local_1_abc" = some d ∧ d.refCount = 1 ∧ d.balance = 0.005 ∧
      d.refCount ≠ 0 ∧ d.balance ≠ 0 := by
  refine ⟨rfl, ?_⟩
  refine ⟨{ newUser ⟨"local_1_abc", "user__abc"⟩ (some "local_1_abc") with
    createdAt := Stamp.server 7, refCount := 1, balance := 0.005 }, ?_, rfl, rfl, by decide, by decide⟩
  simp [getOrCreateUser, Net.up, getDoc, setDoc, updateReferrerStats, updateDoc, newUser, truthy,
    orNull, creditReferral, tonPerReferral, zero_add_bonus]

/-- C4, amended: when the id is not empty, is not yet in the collection and
the requests succeed, `getOrCreateUser` with the user's own id as referrer
returns the new object (with `refCount` 0 and `balance` 0), stores the new
document credited as its own referrer (`referrerId` its own id, `refCount` 1,
`balance` 0.005), and changes no other document, whatever the requests do. -/
theorem getOrCreateUser_self_referral (st : Store) (u : TgUser) (now : Nat)
    (hnew : getDoc st u.id = none) (hid : u.id ≠ "") :
    (getOrCreateUser true Net.up now st u (some u.id)).1 = .ok (some (newUser u (some u.id))) ∧
    (newUser u (some u.id)).refCount = 0 ∧ (newUser u (some u.id)).balance = 0 ∧
    getDoc (getOrCreateUser true Net.up now st u (some u.id)).2 u.id =
      some { newUser u (some u.id) with
        referrerId := some u.id, createdAt := Stamp.server now, refCount := 1, balance := 0.005 } ∧
    ∀ (db : Bool) (net : Net) (k : String), k ≠ u.id →
      getDoc (getOrCreateUser db net now st u (some u.id)).2 k = getDoc st k := by
  have ht : truthy (some u.id) = true := (truthy_some u.id).2 hid
  refine ⟨?_, rfl, rfl, ?_, ?_⟩
  · simp [getOrCreateUser, Net.up, hnew, ht, updateReferrerStats, getDoc_setDoc]
  · simp [getOrCreateUser, Net.up, hnew, ht, updateReferrerStats, getDoc_setDoc, getDoc_updateDoc,
      creditReferral, tonPerReferral, newUser, orNull, zero_add_bonus]
  · intro db net k hk
    exact getOrCreateUser_other_docs db net now st u (some u.id) k hk
      (fun h => hk (by injection h with h; exact h.symm))

theorem getOrCreateUser_self_referral_witness :
    (getOrCreateUser true Net.up 7 [] ⟨"local_1_abc", "user__abc"⟩ (some "local_1_abc")).1 =
      .ok (some (newUser ⟨"local_1_abc", "user__abc"⟩ (some "local_1_abc"))) :=
  (getOrCreateUser_self_referral [] ⟨"local_1_abc", "user__abc"⟩ 7 rfl (by decide)).1

/-- C5: when the first call of `getOrCreateUser` returns a record, which it
does when Firestore is initialised and its requests succeed, the user's
document is in the collection afterwards, and a second call for the same id,
with any referrer and any request outcomes, leaves the whole collection as
the first call left it and, when its read succeeds, returns the stored
document. -/
theorem getOrCreateUser_idempotent (db : Bool) (net1 net2 : Net) (now1 now2 : Nat) (st : Store)
    (u : TgUser) (r1 r2 : Option String) :
    (db = true → net1 = Net.up → ∃ d, (getOrCreateUser db net1 now1 st u r1).1 = .ok (some d)) ∧
    (∀ d, (getOrCreateUser db net1 now1 st u r1).1 = .ok (some d) →
      ∃ stored, getDoc (getOrCreateUser db net1 now1 st u r1).2 u.id = some stored ∧
        (getOrCreateUser db net2 now2 (getOrCreateUser db net1 now1 st u r1).2 u r2).2 =
          (getOrCreateUser db net1 now1 st u r1).2 ∧
        (net2.getUser = true →
          (getOrCreateUser db net2 now2 (getOrCreateUser db net1 now1 st u r1).2 u r2).1 =
            .ok (some stored))) := by
  constructor
  · intro hdb hnet
    subst hdb; subst hnet
    unfold getOrCreateUser
    cases hd : getDoc st u.id with
    | some data => simp [Net.up]
    | none =>
      cases r1 with
      | none => simp [Net.up]
      | some r =>
        by_cases ht : truthy (some r) = true
        · simp only [Net.up, ht, if_true, Bool.not_true, Bool.false_eq_true, if_false]
          unfold updateReferrerStats
          cases hr : getDoc (setDoc st u.id { newUser u (some r) with createdAt := Stamp.server now1 }) r <;>
            simp
        · simp [Net.up, ht]
  · intro d h
    obtain ⟨hdb, stored, hs⟩ := getOrCreateUser_returns_stored db net1 now1 st u r1 d h
    have h2 := getOrCreateUser_existing db net2 now2 _ u r2 stored hs
    exact ⟨stored, hs, h2.1, fun hg => h2.2 hdb hg⟩

theorem getOrCreateUser_idempotent_witness :
    ∃ stored, getDoc (getOrCreateUser true Net.up 7 [] ⟨"b", "user_"⟩ (some "a")).2 "b" =
        some stored ∧
      (getOrCreateUser true Net.up 9 (getOrCreateUser true Net.up 7 [] ⟨"b", "user_"⟩ (some "a")).2
        ⟨"b", "user_"⟩ (some "a")).2 =
        (getOrCreateUser true Net.up 7 [] ⟨"b", "user_"⟩ (some "a")).2 ∧
      (Net.up.getUser = true →
        (getOrCreateUser true Net.up 9 (getOrCreateUser true Net.up 7 [] ⟨"b", "user_"⟩ (some "a")).2
          ⟨"b", "user_"⟩ (some "a")).1 = .ok (some stored)) :=
  (getOrCreateUser_idempotent true Net.up Net.up 7 9 [] ⟨"b", "user_"⟩ (some "a") (some "a")).2
    (newUser ⟨"b", "user_"⟩ (some "a"))
    (by simp [getOrCreateUser, Net.up, updateReferrerStats, truthy, getDoc, setDoc, List.lookup])

/-- C6, counterexample: a referrer `a` whose balance is 0.025, the sum of five
bonuses, is credited for a sixth user `b`.  The stored balance becomes the
double 0.030000000000000002, which is not 0.03: it is not the old balance
plus the bonus, the value of the double sum differs from the sum of the
values. -/
theorem referral_credit_rounds :
    ((((((0 : JsNumber) + 0.005) + 0.005) + 0.005) + 0.005) + 0.005 = 0.025) ∧
    getDoc [("a", ⟨"a", "a", "user_", none, 5, 0.025, 0, none, Stamp.server 1⟩)] "a" =
      some ⟨"a", "a", "user_", none, 5, 0.025, 0, none, Stamp.server 1⟩ ∧
    getDoc [("a", ⟨"a", "a", "user_", none, 5, 0.025, 0, none, Stamp.server 1⟩)] "b" = none ∧
    ∃ d, getDoc (getOrCreateUser true Net.up 9
        [("a", ⟨"a", "a", "user_", none, 5, 0.025, 0, none, Stamp.server 1⟩)]
        ⟨"b", "user_"⟩ (some "a")).2 "a" = some d ∧
      d.refCount = 6 ∧
      d.balance = 0.030000000000000002 ∧
      d.balance ≠ 0.03 ∧
      d.balance.units ≠ (0.025 : JsNumber).units + (0.005 : JsNumber).units := by
  refine ⟨?_, rfl, rfl, ?_⟩
  · rw [zero_add_bonus, bonus_sums.1, bonus_sums.2.1, bonus_sums.2.2.1, bonus_sums.2.2.2.1]
  have h : (0.025 : JsNumber) + 0.005 = 0.030000000000000002 := bonus_sums.2.2.2.2
  refine ⟨⟨"a", "a", "user_", none, 6, 0.030000000000000002, 0, none, Stamp.server 1⟩, ?_, rfl, rfl,
    by decide, by decide⟩
  simp [getOrCreateUser, Net.up, getDoc, setDoc, updateReferrerStats, updateDoc, newUser, truthy,
    orNull, creditReferral, tonPerReferral, h, List.lookup]

/-- C6, amended: when the collection holds a document `a` under the non-empty
id `aId` and none under `b.id`, with `b.id` different from `aId`, and the
requests succeed, `getOrCreateUser b aId` stores the new user with
`referrerId = aId` and replaces `a` by `a` with `refCount` one higher and with
the double sum `a.balance + 0.005` as balance, every other field of `a` as
before; a `refCount` of 0 becomes 1, and a balance of 0 becomes exactly
0.005. -/
theorem getOrCreateUser_credits_referrer (st : Store) (a : UserDoc) (aId : String) (b : TgUser)
    (now : Nat) (ha : getDoc st aId = some a) (hb : getDoc st b.id = none) (hne : b.id ≠ aId)
    (hid : aId ≠ "") :
    (getOrCreateUser true Net.up now st b (some aId)).1 = .ok (some (newUser b (some aId))) ∧
    getDoc (getOrCreateUser true Net.up now st b (some aId)).2 b.id =
      some { newUser b (some aId) with referrerId := some aId, createdAt := Stamp.server now } ∧
    getDoc (getOrCreateUser true Net.up now st b (some aId)).2 aId =
      some { a with refCount := a.refCount + 1, balance := a.balance + 0.005 } ∧
    (a.refCount = 0 → ∃ a2, getDoc (getOrCreateUser true Net.up now st b (some aId)).2 aId = some a2 ∧
      a2.refCount = 1) ∧
    (a.balance = 0 → ∃ a2, getDoc (getOrCreateUser true Net.up now st b (some aId)).2 aId = some a2 ∧
      a2.balance = 0.005) := by
  have ht : truthy (some aId) = true := (truthy_some aId).2 hid
  have hne2 : aId ≠ b.id := fun h => hne h.symm
  have h3 : getDoc (getOrCreateUser true Net.up now st b (some aId)).2 aId =
      some { a with refCount := a.refCount + 1, balance := a.balance + 0.005 } := by
    simp [getOrCreateUser, Net.up, hb, ht, updateReferrerStats, getDoc_setDoc, getDoc_updateDoc,
      creditReferral, tonPerReferral, hne2, ha]
  refine ⟨?_, ?_, h3, ?_, ?_⟩
  · simp [getOrCreateUser, Net.up, hb, ht, updateReferrerStats, getDoc_setDoc, hne2, ha]
  · simp [getOrCreateUser, Net.up, hb, ht, updateReferrerStats, getDoc_setDoc, getDoc_updateDoc,
      hne2, ha, hne, newUser, orNull]
  · intro h0
    exact ⟨_, h3, by simp [h0]⟩
  · intro h0
    exact ⟨_, h3, by simp [h0, zero_add_bonus]⟩

theorem getOrCreateUser_credits_referrer_witness :
    getDoc (getOrCreateUser true Net.up 9
        [("a", { newUser ⟨"a", "user_"⟩ none with createdAt := Stamp.server 1 })]
        ⟨"b", "user_"⟩ (some "a")).2 "a" =
      some { ({ newUser ⟨"a", "user_"⟩ none with createdAt := Stamp.server 1 } : UserDoc) with
        refCount := ({ newUser ⟨"a", "user_"⟩ none with createdAt := Stamp.server 1 } : UserDoc).refCount + 1,
        balance := ({ newUser ⟨"a", "user_"⟩ none with createdAt := Stamp.server 1 } : UserDoc).balance + 0.005 } :=
  (getOrCreateUser_credits_referrer
    [("a", { newUser ⟨"a", "user_"⟩ none with createdAt := Stamp.server 1 })]
    { newUser ⟨"a", "user_"⟩ none with createdAt := Stamp.server 1 } "a" ⟨"b", "user_"⟩ 9
    (by simp [getDoc]) (by simp [getDoc]) (by decide) (by decide)).2.2.1

/-! ## Saving, prizes (C2) -/

theorem saveState_state (w : World) (ok : Bool) : (saveState w ok).state = w.state := by
  unfold saveState
  cases hu : w.state.userId with
  | none => simp [hu]
  | some uid =>
    simp only [hu]
    split
    · split <;> simp [showMessage]
    · rfl

theorem saveState_timers (w : World) (ok : Bool) : (saveState w ok).timers = w.timers := by
  unfold saveState
  cases hu : w.state.userId with
  | none => simp [hu]
  | some uid =>
    simp only [hu]
    split
    · split <;> simp [showMessage]
    · rfl

theorem saveState_now (w : World) (ok : Bool) : (saveState w ok).now = w.now := by
  unfold saveState
  cases hu : w.state.userId with
  | none => simp [hu]
  | some uid =>
    simp only [hu]
    split
    · split <;> simp [showMessage]
    · rfl

theorem saveState_slot (w : World) (ok : Bool) :
    (saveState w ok).eggwards_state =
      some (SlotText.json (snapshotJson (snapshotOf w.state))) := by
  unfold saveState
  cases hu : w.state.userId with
  | none => simp [hu]
  | some uid =>
    simp only [hu]
    split
    · split <;> simp [showMessage]
    · rfl

theorem saveState_posts (w : World) (ok : Bool) (p : WithdrawRequest) :
    Effect.post p ∈ (saveState w ok).log ↔ Effect.post p ∈ w.log := by
  unfold saveState
  cases hu : w.state.userId with
  | none => simp [hu]
  | some uid =>
    simp only [hu]
    split
    · split <;> simp [showMessage]
    · rfl

theorem jsLength_jsTrim_empty : jsLength (jsTrim "") = 0 := by decide

/-- C2: `getPrize` is a function of its draw, with the four bands of the
source: below 0.001 the prize is 0.01, from 0.001 to below 0.99 it is 0.005,
from 0.99 to below 10 it is 0.002, from 10 on it is 0.001; the draw 0.0005
gives 0.01 and the draw 50 gives 0.001. -/
theorem getPrize_bands (r : JsNumber) :
    (r < 0.001 → getPrize r = 0.01) ∧
    (0.001 ≤ r → r < 0.99 → getPrize r = 0.005) ∧
    (0.99 ≤ r → r < 10 → getPrize r = 0.002) ∧
    (10 ≤ r → getPrize r = 0.001) ∧
    getPrize 0.0005 = 0.01 ∧ getPrize 50 = 0.001 := by
  refine ⟨?_, ?_, ?_, ?_, ?_, ?_⟩
  · intro h; simp [getPrize, h]
  · intro h1 h2
    have : ¬ r < 0.001 := not_lt.mpr h1
    simp [getPrize, this, h2]
  · intro h1 h2
    have a : ¬ r < 0.99 := not_lt.mpr h1
    have b : ¬ r < 0.001 := fun h => a (lt_trans h prize_thresholds.1)
    simp [getPrize, a, b, h2]
  · intro h1
    have c : ¬ r < 10 := not_lt.mpr h1
    have a : ¬ r < 0.99 := fun h => c (lt_trans h prize_thresholds.2)
    have b : ¬ r < 0.001 := fun h => c (lt_trans h (lt_trans prize_thresholds.1 prize_thresholds.2))
    simp [getPrize, a, b, c]
  · have h : (0.0005 : JsNumber) < 0.001 := by decide
    simp [getPrize, h]
  · have a : ¬ (50 : JsNumber) < 0.001 := by decide
    have b : ¬ (50 : JsNumber) < 0.99 := by decide
    have c : ¬ (50 : JsNumber) < 10 := by decide
    simp [getPrize, a, b, c]

theorem getPrize_bands_witness :
    (0.5 : JsNumber) < 0.99 ∧ getPrize 0.5 = 0.005 :=
  ⟨by decide, (getPrize_bands 0.5).2.1 (by decide) (by decide)⟩

/-! ## Wallet and withdrawal (C10, C3, C9) -/

theorem truthy_of_long (a : String) (h : 10 < jsLength (jsTrim a)) : truthy (some a) = true := by
  rw [truthy_some]
  intro ha
  subst ha
  rw [jsLength_jsTrim_empty] at h
  exact absurd h (by decide)

theorem handleSetWallet_accept (w : World) (a : String) (ok : Bool)
    (h : 10 < jsLength (jsTrim a)) :
    handleSetWallet w (some a) ok =
      showMessage (saveState { w with state := { w.state with walletAddress := some (jsTrim a) } } ok)
        Msg.walletSaved := by
  simp [handleSetWallet, truthy_of_long a h, h]

theorem handleSetWallet_reject (w : World) (a : String) (ok : Bool)
    (h : ¬ 10 < jsLength (jsTrim a)) :
    handleSetWallet w (some a) ok = showMessage w Msg.walletInvalid := by
  simp [handleSetWallet, h]

/-- C10: `handleSetWallet` accepts an input string exactly when its trimmed
form has more than 10 code units: it then sets `walletAddress` to the trimmed
input and reports it saved; otherwise it reports the address invalid and leaves
the state as it was; on cancel nothing changes; `balance` and `progress` are
never changed. -/
theorem handleSetWallet_validates (w : World) (requestOk : Bool) :
    (∀ a : String, 10 < jsLength (jsTrim a) →
      (handleSetWallet w (some a) requestOk).state.walletAddress = some (jsTrim a) ∧
      Effect.message Msg.walletSaved ∈ (handleSetWallet w (some a) requestOk).log) ∧
    (∀ a : String, ¬ 10 < jsLength (jsTrim a) →
      (handleSetWallet w (some a) requestOk).state = w.state ∧
      (handleSetWallet w (some a) requestOk).log = w.log ++ [Effect.message Msg.walletInvalid]) ∧
    handleSetWallet w none requestOk = w ∧
    (∀ address : Option String,
      (handleSetWallet w address requestOk).state.balance = w.state.balance ∧
      (handleSetWallet w address requestOk).state.progress = w.state.progress) := by
  refine ⟨?_, ?_, rfl, ?_⟩
  · intro a h
    rw [handleSetWallet_accept w a requestOk h]
    simp [showMessage, saveState_state]
  · intro a h
    rw [handleSetWallet_reject w a requestOk h]
    simp [showMessage]
  · intro address
    cases address with
    | none => exact ⟨rfl, rfl⟩
    | some a =>
      by_cases h : 10 < jsLength (jsTrim a)
      · rw [handleSetWallet_accept w a requestOk h]
        simp [showMessage, saveState_state]
      · rw [handleSetWallet_reject w a requestOk h]
        simp [showMessage]

theorem handleSetWallet_validates_witness :
    (handleSetWallet initialWorld (some "  EQC1234567890 ") true).state.walletAddress =
        some "EQC1234567890" ∧
      (handleSetWallet initialWorld (some " EQC12345 ") true).state = initialWorld.state :=
  ⟨((handleSetWallet_validates initialWorld true).1 "  EQC1234567890 " (by decide)).1,
   ((handleSetWallet_validates initialWorld true).2.1 " EQC12345 " (by decide)).1⟩

/-- C3: with a wallet address set, `handleWithdraw` sets `balance` to 0 when
the balance is at least `MIN_WITHDRAWAL` and the webhook answers OK; below
`MIN_WITHDRAWAL` it only reports that the balance is too low, sending nothing
and changing nothing; when the webhook request fails or answers non-OK the
state, so the balance, is as before, and at `MIN_WITHDRAWAL` or above the
failure is reported. -/
theorem handleWithdraw_balance (w : World) (address : Option String) (requestOk : Bool)
    (hw : truthy w.state.walletAddress = true) :
    (MIN_WITHDRAWAL ≤ w.state.balance →
      (handleWithdraw w address Response.ok requestOk).state.balance = 0) ∧
    (w.state.balance < MIN_WITHDRAWAL → ∀ response : Response,
      (handleWithdraw w address response requestOk).state = w.state ∧
      (handleWithdraw w address response requestOk).log =
        w.log ++ [Effect.message Msg.insufficientBalance]) ∧
    (∀ response : Response, response ≠ Response.ok →
      (handleWithdraw w address response requestOk).state = w.state ∧
      (MIN_WITHDRAWAL ≤ w.state.balance →
        Effect.message Msg.withdrawFailed ∈ (handleWithdraw w address response requestOk).log)) := by
  refine ⟨?_, ?_, ?_⟩
  · intro h
    have hlt : ¬ w.state.balance < MIN_WITHDRAWAL := not_lt.mpr h
    simp [handleWithdraw, hlt, hw, saveState_state, showMessage]
  · intro h response
    simp [handleWithdraw, h, showMessage]
  · intro response hr
    by_cases hlt : w.state.balance < MIN_WITHDRAWAL
    · simp [handleWithdraw, hlt, showMessage]
    · cases response with
      | ok => exact absurd rfl hr
      | notOk => simp [handleWithdraw, hlt, hw, showMessage]
      | failed => simp [handleWithdraw, hlt, hw, showMessage]

theorem handleWithdraw_balance_witness :
    (handleWithdraw { initialWorld with state := { initialState with
        balance := 0.02, walletAddress := some "EQC1234567890" } } none Response.ok true).state.balance
      = 0 ∧
    (handleWithdraw { initialWorld with state := { initialState with
        balance := 0.01, walletAddress := some "EQC1234567890" } } none Response.ok true).state.balance
      = 0.01 :=
  ⟨(handleWithdraw_balance { initialWorld with state := { initialState with
      balance := 0.02, walletAddress := some "EQC1234567890" } } none true (by decide)).1
      (by decide),
   congrArg GameState.balance
    ((handleWithdraw_balance { initialWorld with state := { initialState with
      balance := 0.01, walletAddress := some "EQC1234567890" } } none true (by decide)).2.1
      (by decide) Response.ok).1⟩

/-- C9, counterexample: with balance 0.02 and no wallet address,
`handleWithdraw` is rejected for the missing address, sends nothing, and
opens the wallet prompt; the answer `EQC1234567890` is stored, so
`walletAddress` changes from `null` to that address. -/
theorem withdraw_prompt_sets_wallet :
    ¬ ((0.02 : JsNumber) < MIN_WITHDRAWAL) ∧
    truthy ({ initialState with balance := 0.02 } : GameState).walletAddress = false ∧
    (handleWithdraw { initialWorld with state := { initialState with balance := 0.02 } }
      (some "EQC1234567890") Response.ok true).state.walletAddress = some "EQC1234567890" ∧
    (handleWithdraw { initialWorld with state := { initialState with balance := 0.02 } }
      (some "EQC1234567890") Response.ok true).state.walletAddress ≠
      ({ initialState with balance := 0.02 } : GameState).walletAddress := by
  have h : ¬ ((0.02 : JsNumber) < MIN_WITHDRAWAL) := by decide
  have e : (handleWithdraw { initialWorld with state := { initialState with balance := 0.02 } }
      (some "EQC1234567890") Response.ok true).state.walletAddress = some "EQC1234567890" := by
    have hl : 10 < jsLength (jsTrim "EQC1234567890") := by decide
    simp only [handleWithdraw, h, if_false]
    simp [initialWorld, initialState, truthy, handleSetWallet_accept _ _ _ hl, showMessage,
      saveState_state]
    decide
  refine ⟨h, rfl, e, ?_⟩
  rw [e]
  simp [initialState]

/-- C9, amended: when `handleWithdraw` is rejected because the balance is
below `MIN_WITHDRAWAL` or because no wallet address is set, `progress` and
`balance` are unchanged and no webhook request is sent; `walletAddress` is
unchanged when the balance is too low, and otherwise is what the wallet
prompt opened by the rejection leaves: the trimmed answer when it has more
than 10 code units, the old value when not or when the user cancels. -/
theorem handleWithdraw_rejected (w : World) (address : Option String) (response : Response)
    (requestOk : Bool)
    (h : w.state.balance < MIN_WITHDRAWAL ∨ truthy w.state.walletAddress = false) :
    (handleWithdraw w address response requestOk).state.progress = w.state.progress ∧
    (handleWithdraw w address response requestOk).state.balance = w.state.balance ∧
    (∀ p, Effect.post p ∈ (handleWithdraw w address response requestOk).log →
      Effect.post p ∈ w.log) ∧
    (w.state.balance < MIN_WITHDRAWAL →
      (handleWithdraw w address response requestOk).state = w.state) ∧
    (¬ w.state.balance < MIN_WITHDRAWAL →
      (handleWithdraw w address response requestOk).state.walletAddress =
        match address with
        | some a => if 10 < jsLength (jsTrim a) then some (jsTrim a) else w.state.walletAddress
        | none => w.state.walletAddress) := by
  by_cases hlt : w.state.balance < MIN_WITHDRAWAL
  · simp [handleWithdraw, hlt, showMessage]
  · have hw : truthy w.state.walletAddress = false := by
      cases h with
      | inl h => exact absurd h hlt
      | inr h => exact h
    have e : handleWithdraw w address response requestOk =
        handleSetWallet (showMessage w Msg.walletFirst) address requestOk := by
      simp [handleWithdraw, hlt, hw]
    rw [e]
    cases address with
    | none => simp [handleSetWallet, showMessage, hlt]
    | some a =>
      by_cases hl : 10 < jsLength (jsTrim a)
      · rw [handleSetWallet_accept _ a requestOk hl]
        simp [showMessage, saveState_state, saveState_posts, hl, hlt]
      · rw [handleSetWallet_reject _ a requestOk hl]
        simp [showMessage, hl, hlt]

theorem handleWithdraw_rejected_witness :
    (handleWithdraw { initialWorld with state := { initialState with balance := 0.01 } }
      (some "EQC1234567890") Response.ok true).state.balance = 0.01 :=
  (handleWithdraw_rejected { initialWorld with state := { initialState with balance := 0.01 } }
    (some "EQC1234567890") Response.ok true (Or.inr (by decide))).2.1

/-! ## Local fallback of `loadState` (C7, C8) -/

theorem loadLocal_showMessage (w : World) (m : Msg) :
    (loadLocal (showMessage w m)).1 = (loadLocal w).1 ∧
      (loadLocal (showMessage w m)).2.state = (loadLocal w).2.state := by
  unfold loadLocal
  cases h : parseSlot w.eggwards_state with
  | threw => simp [showMessage, h]
  | ok v => cases ht : jsTruthy v <;> simp [showMessage, h, ht]

/-- When the remote store gives no record, `loadState` ends as the local
fallback does on the state that carries the device user. -/
theorem loadState_fallback_eq (page : World) (referrerId : Option String) (freshId : String)
    (net : Net) (queryOk : Bool) (serverNow : Nat)
    (hremote : ∀ d, (getOrCreateUser page.db net serverNow page.store
      (deviceUser page.eggwards_local_userid freshId) referrerId).1 ≠ .ok (some d)) :
    (loadState page referrerId freshId net queryOk serverNow).1 =
        (loadLocal { page with state := { page.state with
          telegramUser := deviceUser page.eggwards_local_userid freshId } }).1 ∧
      (loadState page referrerId freshId net queryOk serverNow).2.state =
        (loadLocal { page with state := { page.state with
          telegramUser := deviceUser page.eggwards_local_userid freshId } }).2.state := by
  unfold loadState
  simp only
  rcases hg : getOrCreateUser page.db net serverNow page.store
      (deviceUser page.eggwards_local_userid freshId) referrerId with ⟨r, st⟩
  rw [hg] at hremote
  cases r with
  | threw =>
    simp only
    have h1 := loadLocal_showMessage { page with
      eggwards_local_userid := some (localUserId page.eggwards_local_userid freshId)
      state := { page.state with telegramUser := deviceUser page.eggwards_local_userid freshId }
      store := st } Msg.serverUnreachable
    rw [h1.1, h1.2]
    unfold loadLocal
    cases h : parseSlot page.eggwards_state with
    | threw => simp [h]
    | ok v => cases ht : jsTruthy v <;> simp [h, ht]
  | ok v =>
    cases v with
    | some d => exact absurd rfl (hremote d)
    | none =>
      simp only
      unfold loadLocal
      cases h : parseSlot page.eggwards_state with
      | threw => simp [h, showMessage]
      | ok v => cases ht : jsTruthy v <;> simp [h, ht]

/-- C7: after `saveState` in any state, a page that holds the slot so written
and has no `userId`, loading while the remote store gives no record
(`getOrCreateUser` returns `null` or throws), completes with `progress`,
`balance` and `walletAddress` equal to the saved values and `userId` still
unset. -/
theorem local_fallback_round_trip (w : World) (requestOk : Bool) (page : World)
    (referrerId : Option String) (freshId : String) (net : Net) (queryOk : Bool) (serverNow : Nat)
    (hslot : page.eggwards_state = (saveState w requestOk).eggwards_state)
    (huid : page.state.userId = none)
    (hremote : ∀ d, (getOrCreateUser page.db net serverNow page.store
      (deviceUser page.eggwards_local_userid freshId) referrerId).1 ≠ .ok (some d)) :
    (loadState page referrerId freshId net queryOk serverNow).1 = .ok () ∧
    (loadState page referrerId freshId net queryOk serverNow).2.state.progress = w.state.progress ∧
    (loadState page referrerId freshId net queryOk serverNow).2.state.balance = w.state.balance ∧
    (loadState page referrerId freshId net queryOk serverNow).2.state.walletAddress =
      w.state.walletAddress ∧
    (loadState page referrerId freshId net queryOk serverNow).2.state.userId = none := by
  obtain ⟨h1, h2⟩ := loadState_fallback_eq page referrerId freshId net queryOk serverNow hremote
  rw [h1, h2]
  rw [saveState_slot] at hslot
  simp [loadLocal, hslot, parseSlot, jsTruthy, snapshotJson, mergeSaved, snapshotOf, huid]

theorem local_fallback_round_trip_witness :
    (loadState { initialWorld with eggwards_state := (saveState { initialWorld with
        state := { initialState with progress := 7, balance := 0.015, walletAddress := some "X" } }
        true).eggwards_state } none "local_1_abc" Net.up true 0).2.state.progress = 7 ∧
    (loadState { initialWorld with eggwards_state := (saveState { initialWorld with
        state := { initialState with progress := 7, balance := 0.015, walletAddress := some "X" } }
        true).eggwards_state } none "local_1_abc" Net.up true 0).2.state.balance = 0.015 ∧
    (loadState { initialWorld with eggwards_state := (saveState { initialWorld with
        state := { initialState with progress := 7, balance := 0.015, walletAddress := some "X" } }
        true).eggwards_state } none "local_1_abc" Net.up true 0).2.state.walletAddress = some "X" ∧
    (loadState { initialWorld with eggwards_state := (saveState { initialWorld with
        state := { initialState with progress := 7, balance := 0.015, walletAddress := some "X" } }
        true).eggwards_state } none "local_1_abc" Net.up true 0).2.state.userId = none :=
  (local_fallback_round_trip
    { initialWorld with
      state := { initialState with progress := 7, balance := 0.015, walletAddress := some "X" } }
    true
    { initialWorld with eggwards_state := (saveState { initialWorld with
        state := { initialState with progress := 7, balance := 0.015, walletAddress := some "X" } }
        true).eggwards_state }
    none "local_1_abc" Net.up true 0 rfl rfl
    (by intro d; simp [getOrCreateUser, initialWorld])).2

/-- C8, counterexample: with text that is not JSON in the slot (such as
`progress=7`) and Firestore not initialised, `JSON.parse` throws in the `try`
block and again in the `catch` block, and `loadState` raises. -/
theorem loadState_corrupt_slot_throws :
    (loadState { initialWorld with eggwards_state := some SlotText.notJson }
      none "local_1_abc" Net.up true 0).1 = Result.threw := by
  simp [loadState, getOrCreateUser, initialWorld, loadLocal, parseSlot, showMessage]

/-- C8, amended: while the remote store gives no record, `loadState` completes
without raising whenever the slot is missing or holds the text of a JSON
value; a missing slot, and a value that is falsy or is not an object, leave
the state as step 2 made it, so `progress`, `balance`, `walletAddress` and
`userId` are at their defaults on a page in its initial state; an object
replaces the fields it names and no other; text that is not JSON makes
`loadState` raise. -/
theorem loadState_fallback_reads (page : World) (referrerId : Option String) (freshId : String)
    (net : Net) (queryOk : Bool) (serverNow : Nat)
    (hremote : ∀ d, (getOrCreateUser page.db net serverNow page.store
      (deviceUser page.eggwards_local_userid freshId) referrerId).1 ≠ .ok (some d)) :
    (page.eggwards_state ≠ some SlotText.notJson →
      (loadState page referrerId freshId net queryOk serverNow).1 = .ok ()) ∧
    ((page.eggwards_state = none ∨ ∃ v, page.eggwards_state = some (SlotText.json v) ∧
        (jsTruthy v = false ∨ ∀ f, v ≠ JsonValue.obj f)) →
      (loadState page referrerId freshId net queryOk serverNow).2.state =
        { page.state with telegramUser := deviceUser page.eggwards_local_userid freshId } ∧
      (page.state = initialState →
        (loadState page referrerId freshId net queryOk serverNow).2.state.progress = 0 ∧
        (loadState page referrerId freshId net queryOk serverNow).2.state.balance = 0 ∧
        (loadState page referrerId freshId net queryOk serverNow).2.state.walletAddress = none ∧
        (loadState page referrerId freshId net queryOk serverNow).2.state.userId = none)) ∧
    (∀ f, page.eggwards_state = some (SlotText.json (JsonValue.obj f)) →
      (loadState page referrerId freshId net queryOk serverNow).2.state =
        mergeSaved { page.state with
          telegramUser := deviceUser page.eggwards_local_userid freshId } (JsonValue.obj f) ∧
      (loadState page referrerId freshId net queryOk serverNow).2.state.userId =
        f.userId.getD page.state.userId ∧
      (loadState page referrerId freshId net queryOk serverNow).2.state.progress =
        f.progress.getD page.state.progress ∧
      (loadState page referrerId freshId net queryOk serverNow).2.state.balance =
        f.balance.getD page.state.balance ∧
      (loadState page referrerId freshId net queryOk serverNow).2.state.walletAddress =
        f.walletAddress.getD page.state.walletAddress) ∧
    (page.eggwards_state = some SlotText.notJson →
      (loadState page referrerId freshId net queryOk serverNow).1 = .threw) := by
  obtain ⟨h1, h2⟩ := loadState_fallback_eq page referrerId freshId net queryOk serverNow hremote
  rw [h1, h2]
  refine ⟨?_, ?_, ?_, ?_⟩
  · intro hc
    cases hs : page.eggwards_state with
    | none => simp [loadLocal, hs, parseSlot, jsTruthy]
    | some t =>
      cases t with
      | json v => cases ht : jsTruthy v <;> simp [loadLocal, hs, parseSlot, ht]
      | notJson => exact absurd hs hc
  · intro hs
    have hst : (loadLocal { page with state := { page.state with
        telegramUser := deviceUser page.eggwards_local_userid freshId } }).2.state =
        { page.state with telegramUser := deviceUser page.eggwards_local_userid freshId } := by
      rcases hs with hs | ⟨v, hs, hv⟩
      · simp [loadLocal, hs, parseSlot, jsTruthy]
      · rcases hv with hv | hv
        · simp [loadLocal, hs, parseSlot, hv]
        · cases ht : jsTruthy v
          · simp [loadLocal, hs, parseSlot, ht]
          · cases v with
            | obj f => exact absurd rfl (hv f)
            | null => simp [loadLocal, hs, parseSlot, ht, mergeSaved]
            | bool b => simp [loadLocal, hs, parseSlot, ht, mergeSaved]
            | num n => simp [loadLocal, hs, parseSlot, ht, mergeSaved]
            | str x => simp [loadLocal, hs, parseSlot, ht, mergeSaved]
            | arr => simp [loadLocal, hs, parseSlot, ht, mergeSaved]
    rw [hst]
    refine ⟨rfl, ?_⟩
    intro hi
    simp [hi, initialState]
  · intro f hs
    simp [loadLocal, hs, parseSlot, jsTruthy, mergeSaved]
  · intro hs
    simp [loadLocal, hs, parseSlot]

theorem loadState_fallback_reads_witness :
    (loadState initialWorld none "local_1_abc" Net.up true 0).1 = .ok () ∧
    (loadState initialWorld none "local_1_abc" Net.up true 0).2.state.progress = 0 ∧
    (loadState initialWorld none "local_1_abc" Net.up true 0).2.state.balance = 0 ∧
    (loadState { initialWorld with eggwards_state := some (SlotText.json (JsonValue.num 7)) }
      none "local_1_abc" Net.up true 0).2.state.progress = 0 :=
  ⟨(loadState_fallback_reads initialWorld none "local_1_abc" Net.up true 0
      (by intro d; simp [getOrCreateUser, initialWorld])).1
      (by simp [initialWorld]),
   (((loadState_fallback_reads initialWorld none "local_1_abc" Net.up true 0
      (by intro d; simp [getOrCreateUser, initialWorld])).2.1 (Or.inl rfl)).2 rfl).1,
   (((loadState_fallback_reads initialWorld none "local_1_abc" Net.up true 0
      (by intro d; simp [getOrCreateUser, initialWorld])).2.1 (Or.inl rfl)).2 rfl).2.1,
   (((loadState_fallback_reads
      { initialWorld with eggwards_state := some (SlotText.json (JsonValue.num 7)) }
      none "local_1_abc" Net.up true 0
      (by intro d; simp [getOrCreateUser, initialWorld])).2.1
      (Or.inr ⟨JsonValue.num 7, rfl, Or.inr (fun f h => by cases h)⟩)).2 rfl).1⟩

/-! ## The ad button and the crack (C1) -/

theorem adCompleted_state (w : World) (ok : Bool) :
    (adCompleted w ok).state = { w.state with progress := w.state.progress + 1 } := by
  unfold adCompleted
  simp only [setTimeout]
  split <;> simp [setTimeout, showMessage, saveState_state]

theorem adCompleted_timers (w : World) (ok : Bool) :
    (adCompleted w ok).timers =
      if w.state.progress + 1 ≥ CLICKS_TO_CRACK then
        w.timers ++ [⟨w.now + 500, Task.crack⟩] ++ [⟨w.now + AD_COOLDOWN, Task.cooldownEnd⟩]
      else w.timers ++ [⟨w.now + AD_COOLDOWN, Task.cooldownEnd⟩] := by
  unfold adCompleted
  simp only [saveState_state]
  split
  · simp [setTimeout, saveState_timers, saveState_now]
  · simp [setTimeout, showMessage, saveState_timers, saveState_now]

theorem crackTheEgg_state (w : World) (rand : JsNumber) (ok : Bool) :
    (crackTheEgg w rand ok).state =
      { w.state with balance := w.state.balance + getPrize rand, progress := 0 } := by
  simp [crackTheEgg, saveState_state, showMessage]

theorem crackTheEgg_timers (w : World) (rand : JsNumber) (ok : Bool) :
    (crackTheEgg w rand ok).timers = w.timers := by
  simp [crackTheEgg, saveState_timers, showMessage]

theorem handleSetWallet_frame (w : World) (address : Option String) (ok : Bool) :
    (handleSetWallet w address ok).timers = w.timers ∧
    (handleSetWallet w address ok).state.progress = w.state.progress ∧
    (handleSetWallet w address ok).state.isAdOnCooldown = w.state.isAdOnCooldown := by
  cases address with
  | none => exact ⟨rfl, rfl, rfl⟩
  | some a =>
    by_cases h : 10 < jsLength (jsTrim a)
    · rw [handleSetWallet_accept w a ok h]
      simp [showMessage, saveState_state, saveState_timers]
    · rw [handleSetWallet_reject w a ok h]
      simp [showMessage]

theorem handleWithdraw_frame (w : World) (address : Option String) (response : Response)
    (ok : Bool) :
    (handleWithdraw w address response ok).timers = w.timers ∧
    (handleWithdraw w address response ok).state.progress = w.state.progress ∧
    (handleWithdraw w address response ok).state.isAdOnCooldown = w.state.isAdOnCooldown := by
  unfold handleWithdraw
  split
  · simp [showMessage]
  · split
    · exact handleSetWallet_frame (showMessage w Msg.walletFirst) address ok
    · cases response <;> simp [showMessage, saveState_state, saveState_timers]

theorem Shape_of_frame (w w2 : World) (h : Shape w) (ht : w2.timers = w.timers)
    (hp : w2.state.progress = w.state.progress)
    (hc : w2.state.isAdOnCooldown = w.state.isAdOnCooldown) : Shape w2 := by
  unfold Shape at h ⊢
  rw [ht, hp, hc]
  exact h

theorem Shape_step (w : World) (e : Event) (h : Shape w) : Shape (step w e) := by
  cases e with
  | elapse dt => exact h
  | clickWallet address requestOk =>
    obtain ⟨ht, hp, hc⟩ := handleSetWallet_frame w address requestOk
    exact Shape_of_frame w _ h ht hp hc
  | clickWithdraw address response requestOk =>
    obtain ⟨ht, hp, hc⟩ := handleWithdraw_frame w address response requestOk
    exact Shape_of_frame w _ h ht hp hc
  | clickWatchAd adDuration =>
    rcases h with ⟨hc, ht, hp⟩ | ⟨hc, ht, hp⟩ | ⟨hc, ht, hp⟩ | ⟨hc, ht, hp⟩
    · right; left
      refine ⟨?_, ⟨w.now + adDuration, ?_⟩, ?_⟩ <;>
        simp [step, handleWatchAd, hc, setTimeout, showMessage, ht, hp]
    · have e : step w (Event.clickWatchAd adDuration) = showMessage w Msg.tooFast := by
        simp [step, handleWatchAd, hc]
      rw [e]
      right; left
      exact ⟨hc, ht, hp⟩
    · have e : step w (Event.clickWatchAd adDuration) = showMessage w Msg.tooFast := by
        simp [step, handleWatchAd, hc]
      rw [e]
      right; right; left
      exact ⟨hc, ht, hp⟩
    · have e : step w (Event.clickWatchAd adDuration) = showMessage w Msg.tooFast := by
        simp [step, handleWatchAd, hc]
      rw [e]
      right; right; right
      exact ⟨hc, ht, hp⟩
  | fire lag rand ok =>
    rcases h with ⟨hc, ht, hp⟩ | ⟨hc, ⟨d, ht⟩, hp⟩ | ⟨hc, ⟨d, ht⟩, hp⟩ | ⟨hc, ⟨d, ht⟩, hp⟩
    · have e : step w (Event.fire lag rand ok) = w := by
        simp [step, ht, nextTimer]
      rw [e]
      left
      exact ⟨hc, ht, hp⟩
    · simp only [step, ht, nextTimer, runTask, List.erase_cons_head]
      by_cases h20 : w.state.progress + 1 ≥ CLICKS_TO_CRACK
      · right; right; right
        refine ⟨?_, ⟨max w.now d + lag, ?_⟩, ?_⟩
        · simp [adCompleted_state, hc]
        · simp [adCompleted_timers, h20]
        · simp only [adCompleted_state]
          omega
      · right; right; left
        refine ⟨?_, ⟨max w.now d + lag + AD_COOLDOWN, ?_⟩, ?_⟩
        · simp [adCompleted_state, hc]
        · simp [adCompleted_timers, h20]
        · simp only [adCompleted_state]
          omega
    · left
      simp [step, ht, nextTimer, runTask, cooldownEnded, hp]
    · right; right; left
      have hlt : ¬ (d + AD_COOLDOWN < d + 500) := by simp [AD_COOLDOWN]
      simp only [step, ht, nextTimer, hlt, if_false, runTask, List.erase_cons_head]
      refine ⟨?_, ⟨d + AD_COOLDOWN, ?_⟩, ?_⟩
      · simp [crackTheEgg_state, hc]
      · simp [crackTheEgg_timers]
      · simp [crackTheEgg_state, CLICKS_TO_CRACK]

theorem Shape_run (events : List Event) (w : World) (h : Shape w) : Shape (run w events) := by
  induction events generalizing w with
  | nil => exact h
  | cons e es ih => exact ih (step w e) (Shape_step w e h)

theorem Shape_initial (w : World) (hs : w.state = initialState) (ht : w.timers = []) :
    Shape w := by
  left
  simp [hs, ht, initialState, CLICKS_TO_CRACK]

/-- Twenty ad completions from the initial page bring `progress` to
`CLICKS_TO_CRACK`. -/
theorem twentyAds_progress : (run initialWorld twentyAds).state.progress = CLICKS_TO_CRACK := by
  simp [run, twentyAds, adRound, step, initialWorld, initialState, handleWatchAd, nextTimer,
    runTask, adCompleted, setTimeout, showMessage, saveState, truthy, cooldownEnded, AD_COOLDOWN,
    CLICKS_TO_CRACK, List.replicate]

/-- C1: from the initial state with no timer pending, after every sequence of
clicks on the buttons, timer firings and waits, `progress` is at most
`CLICKS_TO_CRACK`; a crack is scheduled exactly when `progress` equals
`CLICKS_TO_CRACK`, and then it is the next timer to fire, clicks on the ad
button change nothing in the state, and the firing resets `progress` to 0. -/
theorem progress_bounded_crack_resets (w0 : World) (hs : w0.state = initialState)
    (ht : w0.timers = []) (events : List Event) :
    (run w0 events).state.progress ≤ CLICKS_TO_CRACK ∧
    (crackPending (run w0 events) = true ↔ (run w0 events).state.progress = CLICKS_TO_CRACK) ∧
    ((∃ t, nextTimer (run w0 events).timers = some t ∧ t.task = Task.crack) ↔
      (run w0 events).state.progress = CLICKS_TO_CRACK) ∧
    ((run w0 events).state.progress = CLICKS_TO_CRACK →
      (∀ adDuration, (step (run w0 events) (Event.clickWatchAd adDuration)).state =
        (run w0 events).state) ∧
      ∀ lag rand requestOk,
        (step (run w0 events) (Event.fire lag rand requestOk)).state.progress = 0) := by
  have h := Shape_run events w0 (Shape_initial w0 hs ht)
  generalize run w0 events = w at h ⊢
  have hlt : ¬ (∀ d : Nat, d + AD_COOLDOWN < d + 500) := fun h => by
    have := h 0
    simp [AD_COOLDOWN] at this
  rcases h with ⟨hc, ht, hp⟩ | ⟨hc, ⟨d, ht⟩, hp⟩ | ⟨hc, ⟨d, ht⟩, hp⟩ | ⟨hc, ⟨d, ht⟩, hp⟩
  · refine ⟨le_of_lt hp, ?_, ?_, ?_⟩
    · simp [crackPending, ht, ne_of_lt hp]
    · simp [ht, nextTimer, ne_of_lt hp]
    · intro h20; exact absurd h20 (ne_of_lt hp)
  · refine ⟨le_of_lt hp, ?_, ?_, ?_⟩
    · simp [crackPending, ht, ne_of_lt hp]
    · simp [ht, nextTimer, ne_of_lt hp]
    · intro h20; exact absurd h20 (ne_of_lt hp)
  · refine ⟨le_of_lt hp, ?_, ?_, ?_⟩
    · simp [crackPending, ht, ne_of_lt hp]
    · simp [ht, nextTimer, ne_of_lt hp]
    · intro h20; exact absurd h20 (ne_of_lt hp)
  · have hd : ¬ (d + AD_COOLDOWN < d + 500) := by simp [AD_COOLDOWN]
    refine ⟨le_of_eq hp, ?_, ?_, ?_⟩
    · simp [crackPending, ht, hp]
    · simp [ht, nextTimer, hd, hp]
    · intro _
      constructor
      · intro adDuration
        simp [step, handleWatchAd, hc, showMessage]
      · intro lag rand requestOk
        simp [step, ht, nextTimer, hd, runTask, crackTheEgg_state]

/-- After twenty ad completions from the initial page a crack is scheduled,
and the next firing resets `progress`. -/
theorem progress_bounded_crack_resets_witness :
    (run initialWorld twentyAds).state.progress = CLICKS_TO_CRACK ∧
    crackPending (run initialWorld twentyAds) = true ∧
    (step (run initialWorld twentyAds) (Event.fire 0 50 true)).state.progress = 0 :=
  ⟨twentyAds_progress,
   (progress_bounded_crack_resets initialWorld rfl rfl twentyAds).2.1.2 twentyAds_progress,
   ((progress_bounded_crack_resets initialWorld rfl rfl twentyAds).2.2.2 twentyAds_progress).2
     0 50 true⟩

/-! ## `referrerId` is never rewritten (C11) -/

/-- `updateReferrerStats` keeps every stored document, with its `referrerId`. -/
theorem updateReferrerStats_referrerId (db : Bool) (net : Net) (st : Store) (r k : String)
    (d : UserDoc) (h : getDoc st k = some d) :
    ∃ d2, getDoc (updateReferrerStats db net st r).2 k = some d2 ∧
      d2.referrerId = d.referrerId := by
  unfold updateReferrerStats
  cases db
  · exact ⟨d, by simpa using h, rfl⟩
  · cases hg : net.getReferrer
    · exact ⟨d, by simpa using h, rfl⟩
    · cases hr : getDoc st r with
      | none => exact ⟨d, by simpa using h, rfl⟩
      | some a =>
        cases hu : net.updateReferrer
        · exact ⟨d, by simpa using h, rfl⟩
        · by_cases hk : k = r
          · subst hk
            exact ⟨creditReferral d, by simp [getDoc_updateDoc, h], rfl⟩
          · exact ⟨d, by simp [getDoc_updateDoc, hk, h], rfl⟩

/-- `saveUserData` keeps every stored document, with its `referrerId`. -/
theorem saveUserData_referrerId (db requestOk : Bool) (st : Store) (userId : String)
    (data : LocalSnapshot) (k : String) (d : UserDoc) (h : getDoc st k = some d) :
    ∃ d2, getDoc (saveUserData db requestOk st userId data).2 k = some d2 ∧
      d2.referrerId = d.referrerId := by
  unfold saveUserData
  cases db
  · exact ⟨d, by simpa using h, rfl⟩
  · cases requestOk
    · exact ⟨d, by simpa using h, rfl⟩
    · cases hr : getDoc st userId with
      | none => exact ⟨d, by simpa using h, rfl⟩
      | some a =>
        by_cases hk : k = userId
        · subst hk
          exact ⟨patchDoc data d, by simp [getDoc_updateDoc, h], rfl⟩
        · exact ⟨d, by simp [getDoc_updateDoc, hk, h], rfl⟩

/-- `saveState` keeps every stored document, with its `referrerId`. -/
theorem saveState_referrerId (w : World) (requestOk : Bool) (k : String) (d : UserDoc)
    (h : getDoc w.store k = some d) :
    ∃ d2, getDoc (saveState w requestOk).store k = some d2 ∧ d2.referrerId = d.referrerId := by
  unfold saveState
  cases hu : w.state.userId with
  | none => exact ⟨d, by simpa [hu] using h, rfl⟩
  | some uid =>
    simp only [hu]
    split
    · obtain ⟨d2, h2, e2⟩ := saveUserData_referrerId w.db requestOk w.store uid
        (snapshotOf w.state) k d h
      split
      · rename_i v st hs
        rw [hs] at h2
        exact ⟨d2, h2, e2⟩
      · rename_i st hs
        rw [hs] at h2
        exact ⟨d2, by simpa [showMessage] using h2, e2⟩
    · exact ⟨d, h, rfl⟩

/-- `getOrCreateUser` keeps every stored document, with its `referrerId`,
whether the user exists or is created. -/
theorem getOrCreateUser_keeps_referrerId (db : Bool) (net : Net) (now : Nat) (st : Store)
    (u : TgUser) (r : Option String) (k : String) (d : UserDoc) (h : getDoc st k = some d) :
    ∃ d2, getDoc (getOrCreateUser db net now st u r).2 k = some d2 ∧
      d2.referrerId = d.referrerId := by
  unfold getOrCreateUser
  cases db
  · exact ⟨d, by simpa using h, rfl⟩
  · cases hg : net.getUser
    · exact ⟨d, by simpa using h, rfl⟩
    · cases hd : getDoc st u.id with
      | some data => exact ⟨d, by simpa using h, rfl⟩
      | none =>
        have hk : k ≠ u.id := fun e => by rw [e, hd] at h; exact Option.noConfusion h
        cases hs : net.setUser
        · exact ⟨d, by simpa using h, rfl⟩
        · have h1 : ∀ x : UserDoc, getDoc (setDoc st u.id x) k = some d := fun x => by
            rw [getDoc_setDoc, if_neg hk]; exact h
          cases r with
          | none => exact ⟨d, by simpa using h1 _, rfl⟩
          | some r =>
            by_cases ht : truthy (some r) = true
            · obtain ⟨d2, h2, e2⟩ := updateReferrerStats_referrerId true net
                (setDoc st u.id { newUser u (some r) with createdAt := Stamp.server now }) r k d
                (h1 _)
              simp only [ht, if_true, Bool.not_true, Bool.false_eq_true, if_false]
              split
              · rename_i v st2 hs2
                rw [hs2] at h2
                exact ⟨d2, h2, e2⟩
              · rename_i st2 hs2
                rw [hs2] at h2
                exact ⟨d2, h2, e2⟩
            · exact ⟨d, by simpa [ht] using h1 _, rfl⟩

/-- C11: for every document stored under an id, each operation that writes to
the remote store leaves a document under that id with the same `referrerId`:
`getOrCreateUser` (which writes nothing at all when called for that id, and
when it creates another user only adds that user and credits the referrer),
the patch `saveUserData` sends with `progress`, `balance` and `walletAddress`,
`saveState` which issues that patch, and `updateReferrerStats`; this holds
whatever the outcomes of the requests. -/
theorem referrerId_immutable (st : Store) (k : String) (d : UserDoc)
    (h : getDoc st k = some d) :
    (∀ (db : Bool) (net : Net) (now : Nat) (u : TgUser) (r : Option String), u.id = k →
      (getOrCreateUser db net now st u r).2 = st) ∧
    (∀ (db : Bool) (net : Net) (now : Nat) (u : TgUser) (r : Option String),
      ∃ d2, getDoc (getOrCreateUser db net now st u r).2 k = some d2 ∧
        d2.referrerId = d.referrerId) ∧
    (∀ (db requestOk : Bool) (userId : String) (data : LocalSnapshot),
      ∃ d2, getDoc (saveUserData db requestOk st userId data).2 k = some d2 ∧
        d2.referrerId = d.referrerId) ∧
    (∀ (w : World) (requestOk : Bool), w.store = st →
      ∃ d2, getDoc (saveState w requestOk).store k = some d2 ∧
        d2.referrerId = d.referrerId) ∧
    (∀ (db : Bool) (net : Net) (r : String),
      ∃ d2, getDoc (updateReferrerStats db net st r).2 k = some d2 ∧
        d2.referrerId = d.referrerId) := by
  refine ⟨?_, ?_, ?_, ?_, ?_⟩
  · intro db net now u r hu
    subst hu
    exact (getOrCreateUser_existing db net now st u r d h).1
  · intro db net now u r
    exact getOrCreateUser_keeps_referrerId db net now st u r k d h
  · intro db requestOk userId data
    exact saveUserData_referrerId db requestOk st userId data k d h
  · intro w requestOk hw
    subst hw
    exact saveState_referrerId w requestOk k d h
  · intro db net r
    exact updateReferrerStats_referrerId db net st r k d h

/-- A user referred by `z` keeps that referrer when its progress is saved and
when it is credited for a referral of its own. -/
theorem referrerId_immutable_witness :
    (∃ d2, getDoc (saveUserData true true
        [("a", ⟨"a", "a", "user_", some "z", 0, 0, 0, none, Stamp.server 1⟩)] "a"
        ⟨3, 0.01, some "EQC1234567890"⟩).2 "a" = some d2 ∧
      d2.referrerId = (⟨"a", "a", "user_", some "z", 0, 0, 0, none, Stamp.server 1⟩ : UserDoc).referrerId) ∧
    (∃ d2, getDoc (updateReferrerStats true Net.up
        [("a", ⟨"a", "a", "user_", some "z", 0, 0, 0, none, Stamp.server 1⟩)] "a").2 "a" = some d2 ∧
      d2.referrerId = (⟨"a", "a", "user_", some "z", 0, 0, 0, none, Stamp.server 1⟩ : UserDoc).referrerId) :=
  ⟨(referrerId_immutable [("a", ⟨"a", "a", "user_", some "z", 0, 0, 0, none, Stamp.server 1⟩)] "a"
      ⟨"a", "a", "user_", some "z", 0, 0, 0, none, Stamp.server 1⟩ (by simp [getDoc])).2.2.1
      true true "a" ⟨3, 0.01, some "EQC1234567890"⟩,
   (referrerId_immutable [("a", ⟨"a", "a", "user_", some "z", 0, 0, 0, none, Stamp.server 1⟩)] "a"
      ⟨"a", "a", "user_", some "z", 0, 0, 0, none, Stamp.server 1⟩ (by simp [getDoc])).2.2.2.2
      true Net.up "a"⟩

end Eggwards
